import Mathlib

/-!
Shallow embedding of the audiobookshelf playback client
(src/audiobookshelf_client/src/main.rs).

Seconds (f64 in the source) and volume levels (f32) are modelled as
rationals; the claims under study concern control logic, orderings and
state plumbing, not floating-point rounding.  Rust panics (unwrap on
None, out-of-bounds indexing) are modelled by the PanicOr wrapper;
fallible operations (`Result` with the question-mark operator) by
Except.  External effects (File::open, the remote stream fetch, the
rodio decoder, Sink::try_seek) are parameterised by an Env record so
that every code path of the source functions is representable.
-/

namespace Audiobookshelf

/-- Rust panic (unwrap on None, index out of bounds) versus a normal value. -/
inductive PanicOr (α : Type) where
  | panicked : PanicOr α
  | ok (a : α) : PanicOr α
deriving DecidableEq

/-- FileMetadata: the local file descriptor of a track (schema.rs). -/
structure FileMetadata where
  path : String
deriving DecidableEq

/-- AudioTrack: start_offset and duration in session-global seconds,
optional local file metadata, and the remote content url (schema.rs). -/
structure AudioTrack where
  start_offset : ℚ
  duration : ℚ
  metadata : Option FileMetadata
  content_url : String
deriving DecidableEq

/-- The fields of PlaybackSession used by the client. -/
structure PlaybackSession where
  current_time : ℚ
  duration : ℚ
deriving DecidableEq

/-- PlaybackSessionExtended: the session plus its ordered track list. -/
structure PlaybackSessionExtended where
  playback_session : PlaybackSession
  audio_tracks : List AudioTrack
deriving DecidableEq

/-- PlayingState from main.rs: the session and the active track index. -/
structure PlayingState where
  playback : PlaybackSessionExtended
  current_track : ℕ
deriving DecidableEq

/-- PositionOffset from main.rs: reply payload of GetOffset. -/
structure PositionOffset where
  offset : ℚ
  duration : ℚ
deriving DecidableEq

/-- An entry queued on the rodio Sink: a decoded track buffer, or the
EmptyCallback appended by wait_till_end. -/
inductive SinkEntry where
  | track (i : ℕ) : SinkEntry
  | callback : SinkEntry
deriving DecidableEq

/-- Observable state of the rodio Sink: paused flag, volume, playback
position of the current source, and the queue of appended sources. -/
structure SinkState where
  paused : Bool
  volume : ℚ
  pos : ℚ
  queue : List SinkEntry
deriving DecidableEq

/-- Sink::play unpauses. -/
def SinkState.play (s : SinkState) : SinkState := { s with paused := false }

/-- Sink::pause pauses. -/
def SinkState.pause (s : SinkState) : SinkState := { s with paused := true }

/-- Sink::clear removes all loaded sources and pauses the sink. -/
def SinkState.clear (s : SinkState) : SinkState := { s with queue := [], paused := true }

/-- Sink::append enqueues one more source. -/
def SinkState.append (s : SinkState) (e : SinkEntry) : SinkState :=
  { s with queue := s.queue ++ [e] }

/-- Sink::set_volume stores the level as given, with no clamping. -/
def SinkState.set_volume (s : SinkState) (v : ℚ) : SinkState := { s with volume := v }

/-- Effect of a successful Sink::try_seek. -/
def SinkState.withPos (s : SinkState) (p : ℚ) : SinkState := { s with pos := p }

/-- The byte stream produced by the source resolver: a locally opened
file, or the remote stream fetched through the server. -/
inductive AudioSource where
  | localFile (path : String) : AudioSource
  | remoteStream (url : String) : AudioSource
deriving DecidableEq

/-- Environment: outcomes of the external effects the client invokes.
openLocal is whether File::open succeeds on a path; remoteOk the result
of UserClient::audiofile_stream; decodeOk the result of Decoder::new on
a stream; trySeekOk the result of Sink::try_seek at an offset. -/
structure Env where
  openLocal : String → Bool
  remoteOk : String → Except String Unit
  decodeOk : AudioSource → Except String Unit
  trySeekOk : ℚ → Except String Unit

/-- State of the AudioClient struct (the UserClient handle and the
OutputStream carry no claim-relevant state). -/
structure AudioClient where
  playing : Option PlayingState
  use_local : Bool
  sink : SinkState
deriving DecidableEq

/-- Recursive form of the enumerate loop in get_active_track_index:
return the first track whose end does not precede the position, paired
with the position relative to that track. -/
def findActive (current_time : ℚ) : List AudioTrack → Option (ℕ × ℚ)
  | [] => none
  | track :: rest =>
    if track.start_offset + track.duration ≥ current_time then
      some (0, current_time - track.start_offset)
    else
      (findActive current_time rest).map (fun r => (r.1 + 1, r.2))

/-- AudioClient::get_active_track_index from main.rs. -/
def get_active_track_index (playback : PlaybackSessionExtended) (current_time : ℚ) :
    Option (ℕ × ℚ) :=
  findActive current_time playback.audio_tracks

/-- open_local_stream from main.rs: requires the metadata to be present
and File::open to succeed, otherwise yields none (the ok-question-mark
chain never surfaces an error). -/
def open_local_stream (env : Env) (metadata : Option FileMetadata) : Option AudioSource :=
  match metadata with
  | none => none
  | some m => if env.openLocal m.path then some (AudioSource.localFile m.path) else none

/-- AudioClient::get_audio_source: try the local file when use_local is
set, fall back to the remote stream (whose fetch may fail). -/
def get_audio_source (env : Env) (use_local : Bool) (track : AudioTrack) :
    Except String AudioSource :=
  let source := if use_local then open_local_stream env track.metadata else none
  match source with
  | some s => Except.ok s
  | none =>
    (env.remoteOk track.content_url).map (fun _ => AudioSource.remoteStream track.content_url)

/-- AudioClient::get_volume reads the sink volume. -/
def AudioClient.get_volume (c : AudioClient) : ℚ := c.sink.volume

/-- AudioClient::get_offset: start_offset of the current track plus the
sink position; indexing audio_tracks with current_track may panic. -/
def AudioClient.get_offset (c : AudioClient) : PanicOr (Option PositionOffset) :=
  match c.playing with
  | none => PanicOr.ok none
  | some p =>
    match p.playback.audio_tracks[p.current_track]? with
    | none => PanicOr.panicked
    | some tr =>
      PanicOr.ok (some
        { offset := tr.start_offset + c.sink.pos
          duration := p.playback.playback_session.duration })

/-- AudioClient::wait_till_end appends the EmptyCallback source that
will deliver the end-of-buffer notification. -/
def AudioClient.wait_till_end (c : AudioClient) : AudioClient :=
  { c with sink := c.sink.append SinkEntry.callback }

/-- AudioClient::seek from main.rs.  No session yields Ok false.  The
track lookup is unwrapped: an out-of-range position panics.  On a track
change the sink is cleared, the new track resolved, decoded and
appended, and the prior play and pause state restored; finally the sink
seeks to the intra-track offset.  Errors carry the client state the
Rust code leaves behind when the question-mark operator fires. -/
def AudioClient.seek (env : Env) (c : AudioClient) (position : ℚ) :
    PanicOr (Except String Bool × AudioClient) :=
  match c.playing with
  | none => PanicOr.ok (Except.ok false, c)
  | some playing =>
    match get_active_track_index playing.playback position with
    | none => PanicOr.panicked
    | some (current_track, offset) =>
      if current_track ≠ playing.current_track then
        match playing.playback.audio_tracks[current_track]? with
        | none => PanicOr.panicked
        | some track =>
          let is_paused := c.sink.paused
          let sink1 := c.sink.clear
          match get_audio_source env c.use_local track with
          | Except.error e => PanicOr.ok (Except.error e, { c with sink := sink1 })
          | Except.ok s =>
            match env.decodeOk s with
            | Except.error e => PanicOr.ok (Except.error e, { c with sink := sink1 })
            | Except.ok _ =>
              let sink2 := sink1.append (SinkEntry.track current_track)
              let sink3 := if is_paused then sink2 else sink2.play
              match env.trySeekOk offset with
              | Except.error e => PanicOr.ok (Except.error e, { c with sink := sink3 })
              | Except.ok _ => PanicOr.ok (Except.ok true, { c with sink := sink3.withPos offset })
      else
        match env.trySeekOk offset with
        | Except.error e => PanicOr.ok (Except.error e, c)
        | Except.ok _ => PanicOr.ok (Except.ok true, { c with sink := c.sink.withPos offset })

/-- AudioClient::add_next_track from main.rs.  The bound check happens
before the increment, so for the last track the incremented index
equals the track count and the subsequent indexing panics. -/
def AudioClient.add_next_track (env : Env) (c : AudioClient) :
    PanicOr (Except String Bool × AudioClient) :=
  match c.playing with
  | none => PanicOr.ok (Except.ok false, c)
  | some playing =>
    if playing.current_track ≥ playing.playback.audio_tracks.length then
      PanicOr.ok (Except.ok false, c)
    else
      let playing1 := { playing with current_track := playing.current_track + 1 }
      let c1 := { c with playing := some playing1 }
      match playing1.playback.audio_tracks[playing1.current_track]? with
      | none => PanicOr.panicked
      | some track =>
        match get_audio_source env c1.use_local track with
        | Except.error e => PanicOr.ok (Except.error e, c1)
        | Except.ok s =>
          match env.decodeOk s with
          | Except.error e => PanicOr.ok (Except.error e, c1)
          | Except.ok _ =>
            PanicOr.ok (Except.ok true,
              { c1 with sink := c1.sink.append (SinkEntry.track playing1.current_track) })

/-- One input consumed by an iteration of the select in
run_audio_client: a command from the channel, the channel closing, or
the end-of-buffer notification firing. -/
inductive LoopInput where
  | play : LoopInput
  | pause : LoopInput
  | seek (offset : ℚ) : LoopInput
  | volume (v : ℚ) : LoopInput
  | getVolume : LoopInput
  | getOffset : LoopInput
  | channelClosed : LoopInput
  | audioEnd : LoopInput
deriving DecidableEq

/-- A value the loop sends back on a reply channel. -/
inductive Reply where
  | volume (v : ℚ) : Reply
  | offset (o : Option PositionOffset) : Reply
deriving DecidableEq

/-- Outcome of one iteration of run_audio_client: keep looping with a
new client state (and possibly a reply sent), return Ok, or return an
error (the question-mark operator firing inside the loop). -/
inductive LoopOutcome where
  | cont (c : AudioClient) (reply : Option Reply) : LoopOutcome
  | exitOk : LoopOutcome
  | exitErr (e : String) : LoopOutcome
deriving DecidableEq

/-- One iteration of the select loop in run_audio_client. -/
def run_audio_client_step (env : Env) (c : AudioClient) (i : LoopInput) :
    PanicOr LoopOutcome :=
  match i with
  | LoopInput.play => PanicOr.ok (LoopOutcome.cont { c with sink := c.sink.play } none)
  | LoopInput.pause => PanicOr.ok (LoopOutcome.cont { c with sink := c.sink.pause } none)
  | LoopInput.seek offset =>
    match c.seek env offset with
    | PanicOr.panicked => PanicOr.panicked
    | PanicOr.ok (Except.error e, _) => PanicOr.ok (LoopOutcome.exitErr e)
    | PanicOr.ok (Except.ok _, c1) => PanicOr.ok (LoopOutcome.cont c1.wait_till_end none)
  | LoopInput.volume v =>
    PanicOr.ok (LoopOutcome.cont { c with sink := c.sink.set_volume v } none)
  | LoopInput.getVolume =>
    PanicOr.ok (LoopOutcome.cont c (some (Reply.volume c.get_volume)))
  | LoopInput.getOffset =>
    match c.get_offset with
    | PanicOr.panicked => PanicOr.panicked
    | PanicOr.ok o => PanicOr.ok (LoopOutcome.cont c (some (Reply.offset o)))
  | LoopInput.channelClosed => PanicOr.ok LoopOutcome.exitOk
  | LoopInput.audioEnd =>
    let c1 := { c with sink := c.sink.clear }
    match c1.add_next_track env with
    | PanicOr.panicked => PanicOr.panicked
    | PanicOr.ok (Except.error e, _) => PanicOr.ok (LoopOutcome.exitErr e)
    | PanicOr.ok (Except.ok _, c2) => PanicOr.ok (LoopOutcome.cont c2.wait_till_end none)

/-- The two-track example session of the spec:
tracks start 0 dur 100 and start 100 dur 50. -/
def exPb2 : PlaybackSessionExtended :=
  { playback_session := { current_time := 0, duration := 150 }
    audio_tracks :=
      [ { start_offset := 0, duration := 100, metadata := none, content_url := "t0" }
      , { start_offset := 100, duration := 50, metadata := none, content_url := "t1" } ] }

/-- The one-track example session: a single track of duration 100. -/
def exPb1 : PlaybackSessionExtended :=
  { playback_session := { current_time := 0, duration := 100 }
    audio_tracks :=
      [ { start_offset := 0, duration := 100, metadata := none, content_url := "t0" } ] }

/-- Environment in which every external effect succeeds and no local
file opens. -/
def envOk : Env :=
  { openLocal := fun _ => false
    remoteOk := fun _ => Except.ok ()
    decodeOk := fun _ => Except.ok ()
    trySeekOk := fun _ => Except.ok () }

/-- Environment in which the decoder fails on every stream. -/
def envDecodeFail : Env :=
  { envOk with decodeOk := fun _ => Except.error "decode failure" }

/-- A sink playing track 0 with the end-of-buffer callback armed. -/
def sink0 : SinkState :=
  { paused := false, volume := 1, pos := 50, queue := [SinkEntry.track 0, SinkEntry.callback] }

/-- Client playing track 0 of the two-track example session. -/
def cTwo : AudioClient :=
  { playing := some { playback := exPb2, current_track := 0 }
    use_local := false
    sink := sink0 }

/-- Client playing the only track of the one-track example session. -/
def cOne : AudioClient :=
  { playing := some { playback := exPb1, current_track := 0 }
    use_local := false
    sink := sink0 }

/-- The client state seek leaves behind after seeking the two-track
session from track 0 to position 120: track 1 was decoded, appended and
sought to offset 20, but current_track still reads 0. -/
def c5after : AudioClient :=
  { playing := some { playback := exPb2, current_track := 0 }
    use_local := false
    sink := { paused := false, volume := 1, pos := 20, queue := [SinkEntry.track 1] } }

/-- The no-overlap invariant of the data model: start offsets are
non-decreasing and each track ends no later than the next begins. -/
def no_overlap : List AudioTrack → Bool
  | [] => true
  | [_] => true
  | t :: t2 :: rest =>
    decide (t.start_offset ≤ t2.start_offset) &&
    decide (t.start_offset + t.duration ≤ t2.start_offset) &&
    no_overlap (t2 :: rest)

/-- Contiguity from a base instant: each track starts exactly where the
running clock stands, has nonnegative duration, and advances the clock. -/
def contiguousFrom (s : ℚ) : List AudioTrack → Bool
  | [] => true
  | t :: rest =>
    decide (t.start_offset = s) && decide (0 ≤ t.duration) &&
    contiguousFrom (s + t.duration) rest

/-- Total duration of a track list. -/
def sumDur : List AudioTrack → ℚ
  | [] => 0
  | t :: rest => t.duration + sumDur rest

/-- A session whose two tracks satisfy the no-overlap invariant but
leave a gap between seconds 10 and 20. -/
def gapPb : PlaybackSessionExtended :=
  { playback_session := { current_time := 0, duration := 30 }
    audio_tracks :=
      [ { start_offset := 0, duration := 10, metadata := none, content_url := "g0" }
      , { start_offset := 20, duration := 10, metadata := none, content_url := "g1" } ] }

theorem findActive_some_spec (l : List AudioTrack) (p : ℚ) (i : ℕ) (off : ℚ)
    (h : findActive p l = some (i, off)) :
    ∃ tr, l[i]? = some tr ∧ tr.start_offset + tr.duration ≥ p ∧
      off = p - tr.start_offset ∧
      ∀ j tr', j < i → l[j]? = some tr' → tr'.start_offset + tr'.duration < p := by
  induction l generalizing i off with
  | nil => simp [findActive] at h
  | cons t rest ih =>
    rw [findActive] at h
    by_cases hc : t.start_offset + t.duration ≥ p
    · rw [if_pos hc] at h
      obtain ⟨hi, hoff⟩ : 0 = i ∧ p - t.start_offset = off := by
        simpa using h
      refine ⟨t, ?_, hc, hoff.symm, ?_⟩
      · simp [← hi]
      · intro j tr' hj
        omega
    · rw [if_neg hc] at h
      rw [Option.map_eq_some'] at h
      obtain ⟨⟨i0, off0⟩, hrec, heq⟩ := h
      obtain ⟨hi, hoff⟩ : i0 + 1 = i ∧ off0 = off := by
        simpa [Prod.ext_iff] using heq
      obtain ⟨tr, hget, hge, hoff0, hleast⟩ := ih i0 off0 hrec
      refine ⟨tr, ?_, hge, by rw [← hoff, hoff0], ?_⟩
      · rw [← hi]
        simpa using hget
      · intro j tr' hj hget'
        match j with
        | 0 =>
          have ht : t = tr' := by simpa using hget'
          rw [← ht]
          exact lt_of_not_ge hc
        | j' + 1 =>
          refine hleast j' tr' (by omega) ?_
          simpa using hget'

theorem findActive_isSome (l : List AudioTrack) (p : ℚ)
    (h : ∃ (i : ℕ) (tr : AudioTrack),
      l[i]? = some tr ∧ tr.start_offset + tr.duration ≥ p) :
    (findActive p l).isSome := by
  induction l with
  | nil => simp at h
  | cons t rest ih =>
    rw [findActive]
    by_cases hc : t.start_offset + t.duration ≥ p
    · rw [if_pos hc]; rfl
    · rw [if_neg hc]
      have hrec : (findActive p rest).isSome := by
        apply ih
        obtain ⟨i, tr, hget, hge⟩ := h
        match i with
        | 0 =>
          have ht : t = tr := by simpa using hget
          exact absurd (ht ▸ hge) hc
        | i' + 1 =>
          exact ⟨i', tr, by simpa using hget, hge⟩
      obtain ⟨v, hv⟩ := Option.isSome_iff_exists.mp hrec
      rw [hv]
      rfl

/-- Claim C1: get_active_track_index returns the first track i with
start_offset i + duration i ≥ position, paired with
intra_offset = position − start_offset i; whenever some track satisfies
the bound a result is produced; and on the example session the position
100 resolves to track 0 at offset 100, the position 101 to track 1 at
offset 1. -/
theorem c1_track_index :
    (∀ (pb : PlaybackSessionExtended) (t : ℚ) (i : ℕ) (off : ℚ),
      get_active_track_index pb t = some (i, off) →
      ∃ tr, pb.audio_tracks[i]? = some tr ∧ tr.start_offset + tr.duration ≥ t ∧
        off = t - tr.start_offset ∧
        ∀ j tr', j < i → pb.audio_tracks[j]? = some tr' →
          tr'.start_offset + tr'.duration < t)
    ∧ (∀ (pb : PlaybackSessionExtended) (t : ℚ),
      (∃ (i : ℕ) (tr : AudioTrack),
        pb.audio_tracks[i]? = some tr ∧ tr.start_offset + tr.duration ≥ t) →
      (get_active_track_index pb t).isSome)
    ∧ get_active_track_index exPb2 100 = some (0, 100)
    ∧ get_active_track_index exPb2 101 = some (1, 1) := by
  refine ⟨?_, ?_, ?_, ?_⟩
  · intro pb t i off h
    exact findActive_some_spec pb.audio_tracks t i off h
  · intro pb t h
    exact findActive_isSome pb.audio_tracks t h
  · norm_num [get_active_track_index, findActive, exPb2]
  · norm_num [get_active_track_index, findActive, exPb2]

/-- Concrete instantiation of c1_track_index at the example session and
position 100. -/
theorem c1_track_index_witness :
    ∃ tr, exPb2.audio_tracks[0]? = some tr ∧ tr.start_offset + tr.duration ≥ 100 ∧
      (100 : ℚ) = 100 - tr.start_offset ∧
      ∀ j tr', j < 0 → exPb2.audio_tracks[j]? = some tr' →
        tr'.start_offset + tr'.duration < 100 :=
  c1_track_index.1 exPb2 100 0 100 (by norm_num [get_active_track_index, findActive, exPb2])

/-- Claim C2: contrary to the claim, a SeekTo whose position lies
beyond the total session duration is not rejected with an error and an
unchanged state: get_active_track_index yields none and the unwrap in
seek panics, at the level of the single command handler and of the
event loop alike.  Shown on the two-track session at position 151. -/
theorem c2_seek_out_of_range_panics :
    AudioClient.seek envOk cTwo 151 = PanicOr.panicked
    ∧ run_audio_client_step envOk cTwo (LoopInput.seek 151) = PanicOr.panicked := by
  constructor
  · norm_num [AudioClient.seek, get_active_track_index, findActive, exPb2, cTwo, sink0, envOk]
  · norm_num [run_audio_client_step, AudioClient.seek, get_active_track_index, findActive,
      exPb2, cTwo, sink0, envOk]

/-- Claim C3: contrary to the claim, when the end-of-track signal fires
on the last track, add_next_track panics with an out-of-bounds track
access: the bound check precedes the increment, so current_track is
incremented to the track count and then used as an index.  Shown on a
one-track session with current_track 0, both for the handler itself
and for the event-loop iteration that invokes it. -/
theorem c3_last_track_panics :
    AudioClient.add_next_track envOk cOne = PanicOr.panicked
    ∧ run_audio_client_step envOk cOne LoopInput.audioEnd = PanicOr.panicked := by
  constructor
  · norm_num [AudioClient.add_next_track, exPb1, cOne, sink0, envOk]
  · norm_num [run_audio_client_step, AudioClient.add_next_track, SinkState.clear,
      exPb1, cOne, sink0, envOk]

/-- Claim C5: contrary to the claim, a successful cross-track seek does
not update current_track.  Seeking the two-track session from track 0
to position 120 resolves to track 1 at offset 20 and queues track 1,
yet the playing state keeps current_track 0, so get_offset afterwards
reports offset 20 (start of track 0 plus sink position) instead of the
true session position 120. -/
theorem c5_seek_does_not_update_current_track :
    AudioClient.seek envOk cTwo 120 = PanicOr.ok (Except.ok true, c5after)
    ∧ get_active_track_index exPb2 120 = some (1, 20)
    ∧ c5after.playing = some { playback := exPb2, current_track := 0 }
    ∧ c5after.get_offset = PanicOr.ok (some { offset := 20, duration := 150 })
    ∧ c5after.get_offset ≠ PanicOr.ok (some { offset := 120, duration := 150 }) := by
  refine ⟨?_, ?_, rfl, ?_, ?_⟩
  · norm_num [AudioClient.seek, get_active_track_index, findActive, get_audio_source,
      open_local_stream, Except.map, SinkState.clear, SinkState.append, SinkState.play,
      SinkState.withPos, exPb2, cTwo, sink0, envOk, c5after]
  · norm_num [get_active_track_index, findActive, exPb2]
  · norm_num [AudioClient.get_offset, c5after, exPb2]
  · norm_num [AudioClient.get_offset, c5after, exPb2]

/-- Claim C8: with no session loaded, seek returns Ok false and the
client state, its sink included, is returned exactly as it was, for
every environment and position. -/
theorem c8_seek_no_session (env : Env) (ul : Bool) (s : SinkState) (p : ℚ) :
    AudioClient.seek env { playing := none, use_local := ul, sink := s } p =
      PanicOr.ok (Except.ok false, { playing := none, use_local := ul, sink := s }) :=
  rfl

/-- Claim C6 fails as stated, twice over.  On the two-track example
session, which satisfies the no-overlap invariant, the internal
boundary position 100 (within the total duration 150) yields track 0
with offset 100 = duration of track 0, although 100 is not the final
boundary.  And on the gapped session, also satisfying the invariant,
position 15 (within the total duration) yields track 1 with the
negative offset -5. -/
theorem c6_boundary_and_gap_counterexample :
    no_overlap exPb2.audio_tracks = true
    ∧ (100 : ℚ) ≤ 150
    ∧ get_active_track_index exPb2 100 = some (0, 100)
    ∧ ¬((100 : ℚ) < 100)
    ∧ (100 : ℚ) ≠ 150
    ∧ no_overlap gapPb.audio_tracks = true
    ∧ (15 : ℚ) ≤ 30
    ∧ get_active_track_index gapPb 15 = some (1, -5)
    ∧ ¬((0 : ℚ) ≤ -5) := by
  refine ⟨?_, by norm_num, ?_, by norm_num, by norm_num, ?_, by norm_num, ?_, by norm_num⟩
  · norm_num [no_overlap, exPb2]
  · norm_num [get_active_track_index, findActive, exPb2]
  · norm_num [no_overlap, gapPb]
  · norm_num [get_active_track_index, findActive, gapPb]

theorem findActive_contiguous (l : List AudioTrack) (s p : ℚ)
    (hc : contiguousFrom s l = true) (hne : l ≠ []) (hsp : s ≤ p)
    (hps : p ≤ s + sumDur l) :
    ∃ (i : ℕ) (off : ℚ) (tr : AudioTrack), findActive p l = some (i, off) ∧
      l[i]? = some tr ∧ off = p - tr.start_offset ∧ 0 ≤ off ∧ off ≤ tr.duration := by
  induction l generalizing s with
  | nil => exact absurd rfl hne
  | cons t rest ih =>
    rw [contiguousFrom] at hc
    simp only [Bool.and_eq_true, decide_eq_true_eq] at hc
    obtain ⟨⟨hstart, hdur⟩, hrest⟩ := hc
    rw [findActive]
    by_cases hb : t.start_offset + t.duration ≥ p
    · rw [if_pos hb]
      refine ⟨0, p - t.start_offset, t, rfl, by simp, rfl, ?_, ?_⟩
      · rw [hstart]; linarith
      · linarith
    · rw [if_neg hb]
      have hlt : t.start_offset + t.duration < p := lt_of_not_ge hb
      have hrne : rest ≠ [] := by
        intro hr
        rw [hr, sumDur, sumDur] at hps
        rw [hstart] at hlt
        linarith
      have hs' : s + t.duration ≤ p := by rw [hstart] at hlt; linarith
      have hp' : p ≤ (s + t.duration) + sumDur rest := by
        rw [sumDur] at hps; linarith
      obtain ⟨i, off, tr, hfa, hget, hoff, h0, hd⟩ := ih (s + t.duration) hrest hrne hs' hp'
      refine ⟨i + 1, off, tr, ?_, by simpa using hget, hoff, h0, hd⟩
      rw [hfa]
      rfl

/-- Claim C6 amended: for every contiguous track sequence (the first
track starts at second 0, each track starts where the previous one
ends, durations are nonnegative) and every position p with
0 ≤ p ≤ total duration, the Track Index returns exactly one
(track, offset) with 0 ≤ offset ≤ duration of that track, and
offset = duration exactly at the track-end boundary positions
p = start_offset + duration — every internal boundary included, not
only the final one. -/
theorem c6_contiguous_range (pb : PlaybackSessionExtended) (p : ℚ)
    (hc : contiguousFrom 0 pb.audio_tracks = true) (hne : pb.audio_tracks ≠ [])
    (h0 : 0 ≤ p) (hp : p ≤ sumDur pb.audio_tracks) :
    ∃ (i : ℕ) (off : ℚ) (tr : AudioTrack),
      get_active_track_index pb p = some (i, off) ∧ pb.audio_tracks[i]? = some tr ∧
      0 ≤ off ∧ off ≤ tr.duration ∧
      (off = tr.duration ↔ p = tr.start_offset + tr.duration) := by
  obtain ⟨i, off, tr, hfa, hget, hoff, ha, hb⟩ :=
    findActive_contiguous pb.audio_tracks 0 p hc hne h0 (by simpa using hp)
  refine ⟨i, off, tr, hfa, hget, ha, hb, ?_⟩
  rw [hoff]
  constructor <;> intro h <;> linarith

/-- Concrete instantiation of c6_contiguous_range on the two-track
example session at position 42. -/
theorem c6_contiguous_range_witness :
    ∃ (i : ℕ) (off : ℚ) (tr : AudioTrack),
      get_active_track_index exPb2 42 = some (i, off) ∧ exPb2.audio_tracks[i]? = some tr ∧
      0 ≤ off ∧ off ≤ tr.duration ∧
      (off = tr.duration ↔ (42 : ℚ) = tr.start_offset + tr.duration) :=
  c6_contiguous_range exPb2 42 (by norm_num [contiguousFrom, exPb2])
    (by simp [exPb2]) (by norm_num) (by norm_num [sumDur, exPb2])

theorem open_local_stream_some_iff (env : Env) (md : Option FileMetadata) (p : String) :
    open_local_stream env md = some (AudioSource.localFile p) ↔
      ∃ m, md = some m ∧ m.path = p ∧ env.openLocal m.path = true := by
  cases md with
  | none => simp [open_local_stream]
  | some m =>
    by_cases ho : env.openLocal m.path
    · simp [open_local_stream, ho]
    · simp [open_local_stream, ho]

theorem open_local_stream_none_iff (env : Env) (md : Option FileMetadata) :
    open_local_stream env md = none ↔
      ¬∃ m, md = some m ∧ env.openLocal m.path = true := by
  cases md with
  | none => simp [open_local_stream]
  | some m =>
    by_cases ho : env.openLocal m.path
    · simp [open_local_stream, ho]
    · simp [open_local_stream, ho]

/-- Claim C7: the source resolver yields the local file stream exactly
when local mode is enabled, the track has a descriptor and the open
succeeds; in every other case, a failed local open included, it falls
back to the remote stream, so a local open failure is never surfaced as
an error. -/
theorem c7_source_resolver (env : Env) (ul : Bool) (track : AudioTrack) :
    (∀ p : String,
      get_audio_source env ul track = Except.ok (AudioSource.localFile p) ↔
        (ul = true ∧ ∃ m, track.metadata = some m ∧ m.path = p ∧ env.openLocal m.path = true))
    ∧ ((ul = true → open_local_stream env track.metadata = none) →
        get_audio_source env ul track =
          (env.remoteOk track.content_url).map
            (fun _ => AudioSource.remoteStream track.content_url))
    ∧ (open_local_stream env track.metadata = none ↔
        ¬∃ m, track.metadata = some m ∧ env.openLocal m.path = true) := by
  refine ⟨?_, ?_, open_local_stream_none_iff env track.metadata⟩
  · intro p
    constructor
    · intro h
      cases ul with
      | false =>
        cases hr : env.remoteOk track.content_url <;>
          simp [get_audio_source, hr, Except.map] at h
      | true =>
        cases hls : open_local_stream env track.metadata with
        | none =>
          cases hr : env.remoteOk track.content_url <;>
            simp [get_audio_source, hls, hr, Except.map] at h
        | some s =>
          have hs : s = AudioSource.localFile p := by
            simpa [get_audio_source, hls] using h
          rw [hs] at hls
          exact ⟨rfl, (open_local_stream_some_iff env track.metadata p).mp hls⟩
    · rintro ⟨hul, m, hm, hp, ho⟩
      subst hul
      have hls : open_local_stream env track.metadata = some (AudioSource.localFile p) :=
        (open_local_stream_some_iff env track.metadata p).mpr ⟨m, hm, hp, ho⟩
      simp [get_audio_source, hls]
  · intro h
    cases ul with
    | false => simp [get_audio_source]
    | true => simp [get_audio_source, h rfl]

/-- Concrete instantiation of c7_source_resolver: local mode enabled, a
descriptor present, but the open fails, so the resolver answers with
the remote stream and no error. -/
theorem c7_source_resolver_witness :
    get_audio_source envOk true
        { start_offset := 0, duration := 100, metadata := some { path := "a" },
          content_url := "u" } =
      (envOk.remoteOk "u").map (fun _ => AudioSource.remoteStream "u") :=
  (c7_source_resolver envOk true
      { start_offset := 0, duration := 100, metadata := some { path := "a" },
        content_url := "u" }).2.1
    (fun _ => by norm_num [open_local_stream, envOk])

/-- Claim C4 fails as stated: a decode failure does terminate the
event loop.  With a decoder that fails, a Seek command that crosses to
the other track makes the loop iteration return the error (the
question-mark operator on seek), and an end-of-buffer notification
makes it return the error likewise (the question-mark operator on
add_next_track) instead of skipping to the next track. -/
theorem c4_error_terminates_loop :
    run_audio_client_step envDecodeFail cTwo (LoopInput.seek 120) =
      PanicOr.ok (LoopOutcome.exitErr "decode failure")
    ∧ run_audio_client_step envDecodeFail cTwo LoopInput.audioEnd =
      PanicOr.ok (LoopOutcome.exitErr "decode failure") := by
  constructor
  · norm_num [run_audio_client_step, AudioClient.seek, get_active_track_index, findActive,
      get_audio_source, open_local_stream, Except.map, SinkState.clear, SinkState.append,
      SinkState.play, envDecodeFail, envOk, cTwo, sink0, exPb2]
  · norm_num [run_audio_client_step, AudioClient.add_next_track, get_audio_source,
      open_local_stream, Except.map, SinkState.clear, SinkState.append,
      envDecodeFail, envOk, cTwo, sink0, exPb2]

/-- Claim C4 amended: the loop returns cleanly exactly when the command
channel closes, and an error from seek while handling a Seek command,
or from add_next_track during auto-advance, propagates out of the loop
and terminates it, rather than being reported to the command issuer or
treated as skip-to-next-track. -/
theorem c4_loop_error_propagation :
    (∀ (env : Env) (c : AudioClient),
      run_audio_client_step env c LoopInput.channelClosed = PanicOr.ok LoopOutcome.exitOk)
    ∧ (∀ (env : Env) (c : AudioClient) (off : ℚ) (e : String) (c1 : AudioClient),
      AudioClient.seek env c off = PanicOr.ok (Except.error e, c1) →
      run_audio_client_step env c (LoopInput.seek off) = PanicOr.ok (LoopOutcome.exitErr e))
    ∧ (∀ (env : Env) (c : AudioClient) (e : String) (c1 : AudioClient),
      AudioClient.add_next_track env { c with sink := c.sink.clear } =
        PanicOr.ok (Except.error e, c1) →
      run_audio_client_step env c LoopInput.audioEnd = PanicOr.ok (LoopOutcome.exitErr e)) := by
  refine ⟨fun env c => rfl, ?_, ?_⟩
  · intro env c off e c1 h
    simp [run_audio_client_step, h]
  · intro env c e c1 h
    simp [run_audio_client_step, h]

/-- Concrete instantiation of c4_loop_error_propagation: the failing
Seek of the counterexample, reached through the amended theorem. -/
theorem c4_loop_error_propagation_witness :
    run_audio_client_step envDecodeFail cTwo (LoopInput.seek 120) =
      PanicOr.ok (LoopOutcome.exitErr "decode failure") :=
  c4_loop_error_propagation.2.1 envDecodeFail cTwo 120 "decode failure"
    { playing := some { playback := exPb2, current_track := 0 }
      use_local := false
      sink := { paused := true, volume := 1, pos := 50, queue := [] } }
    (by norm_num [AudioClient.seek, get_active_track_index, findActive, get_audio_source,
      open_local_stream, Except.map, SinkState.clear, envDecodeFail, envOk, cTwo, sink0, exPb2])

/-- Claim C9: a Play command only unpauses the sink and a Pause command
only pauses it: the playing state, the sink position, the volume and
the queue of appended sources (the armed end-of-buffer callback
included) are returned exactly as they were, and no reply is sent. -/
theorem c9_play_pause_frame (env : Env) (c : AudioClient) :
    run_audio_client_step env c LoopInput.play =
      PanicOr.ok (LoopOutcome.cont { c with sink := { c.sink with paused := false } } none)
    ∧ run_audio_client_step env c LoopInput.pause =
      PanicOr.ok (LoopOutcome.cont { c with sink := { c.sink with paused := true } } none) :=
  ⟨rfl, rfl⟩

theorem seek_preserves_volume (env : Env) (c : AudioClient) (p : ℚ)
    (r : Except String Bool) (c1 : AudioClient)
    (h : AudioClient.seek env c p = PanicOr.ok (r, c1)) :
    c1.sink.volume = c.sink.volume := by
  rw [AudioClient.seek.eq_def] at h
  repeat' split at h
  all_goals
    first
    | exact PanicOr.noConfusion h
    | (injection h with h'
       injection h' with h1 h2
       subst h2
       by_cases hp : c.sink.paused = true <;>
         simp [hp, SinkState.clear, SinkState.append, SinkState.play, SinkState.withPos])

theorem add_next_track_preserves_volume (env : Env) (c : AudioClient)
    (r : Except String Bool) (c1 : AudioClient)
    (h : AudioClient.add_next_track env c = PanicOr.ok (r, c1)) :
    c1.sink.volume = c.sink.volume := by
  rw [AudioClient.add_next_track.eq_def] at h
  simp only [] at h
  repeat' split at h
  all_goals
    first
    | exact PanicOr.noConfusion h
    | (injection h with h'
       injection h' with h1 h2
       subst h2
       simp [SinkState.append])

/-- Claim C10: SetVolume stores the level on the sink exactly as given,
with no clamping and without touching the playing state; GetVolume
reads it back, so a GetVolume after a SetVolume with no intervening
SetVolume returns exactly the level set; and every other loop input
leaves the volume unchanged. -/
theorem c10_volume_roundtrip :
    (∀ (env : Env) (c : AudioClient) (v : ℚ),
      run_audio_client_step env c (LoopInput.volume v) =
        PanicOr.ok (LoopOutcome.cont { c with sink := { c.sink with volume := v } } none))
    ∧ (∀ (env : Env) (c : AudioClient),
      run_audio_client_step env c LoopInput.getVolume =
        PanicOr.ok (LoopOutcome.cont c (some (Reply.volume c.sink.volume))))
    ∧ (∀ (env : Env) (c : AudioClient) (v : ℚ),
      run_audio_client_step env { c with sink := { c.sink with volume := v } }
          LoopInput.getVolume =
        PanicOr.ok (LoopOutcome.cont { c with sink := { c.sink with volume := v } }
          (some (Reply.volume v))))
    ∧ (∀ (env : Env) (c : AudioClient) (i : LoopInput) (c1 : AudioClient)
        (r : Option Reply),
      (∀ v : ℚ, i ≠ LoopInput.volume v) →
      run_audio_client_step env c i = PanicOr.ok (LoopOutcome.cont c1 r) →
      c1.sink.volume = c.sink.volume) := by
  refine ⟨fun env c v => rfl, fun env c => rfl, fun env c v => rfl, ?_⟩
  intro env c i c1 r hne h
  cases i with
  | play =>
    simp only [run_audio_client_step, PanicOr.ok.injEq, LoopOutcome.cont.injEq] at h
    rw [← h.1]
    rfl
  | pause =>
    simp only [run_audio_client_step, PanicOr.ok.injEq, LoopOutcome.cont.injEq] at h
    rw [← h.1]
    rfl
  | seek off =>
    simp only [run_audio_client_step] at h
    rcases hs : AudioClient.seek env c off with _ | ⟨res, c2⟩
    · rw [hs] at h
      exact absurd h (by simp)
    · rw [hs] at h
      cases res with
      | error e => exact absurd h (by simp)
      | ok b =>
        simp only [PanicOr.ok.injEq, LoopOutcome.cont.injEq] at h
        rw [← h.1]
        have hv := seek_preserves_volume env c off (Except.ok b) c2 hs
        simpa [AudioClient.wait_till_end, SinkState.append] using hv
  | volume v => exact absurd rfl (hne v)
  | getVolume =>
    simp only [run_audio_client_step, PanicOr.ok.injEq, LoopOutcome.cont.injEq] at h
    rw [← h.1]
  | getOffset =>
    simp only [run_audio_client_step] at h
    rcases ho : c.get_offset with _ | o
    · rw [ho] at h
      exact absurd h (by simp)
    · rw [ho] at h
      simp only [PanicOr.ok.injEq, LoopOutcome.cont.injEq] at h
      rw [← h.1]
  | channelClosed =>
    exact absurd h (by simp [run_audio_client_step])
  | audioEnd =>
    simp only [run_audio_client_step] at h
    rcases ha : AudioClient.add_next_track env { c with sink := c.sink.clear }
      with _ | ⟨res, c2⟩
    · rw [ha] at h
      exact absurd h (by simp)
    · rw [ha] at h
      cases res with
      | error e => exact absurd h (by simp)
      | ok b =>
        simp only [PanicOr.ok.injEq, LoopOutcome.cont.injEq] at h
        rw [← h.1]
        have hv := add_next_track_preserves_volume env { c with sink := c.sink.clear }
          (Except.ok b) c2 ha
        simpa [AudioClient.wait_till_end, SinkState.append, SinkState.clear] using hv

/-- Concrete instantiation of the preservation part of
c10_volume_roundtrip: a Play step on the example client keeps the
volume. -/
theorem c10_volume_roundtrip_witness :
    ({ cTwo with sink := { cTwo.sink with paused := false } } : AudioClient).sink.volume =
      cTwo.sink.volume :=
  c10_volume_roundtrip.2.2.2 envOk cTwo LoopInput.play
    { cTwo with sink := { cTwo.sink with paused := false } } none
    (fun _ h => LoopInput.noConfusion h) rfl

end Audiobookshelf
